import Mathlib

/-!
# GPS co-processor system module (`flight/modules/gpsp/gpsdsysmod.c`)

A shallow embedding of the relay step `ReadGPS`, the magnetometer step `ReadMag`
and the main loop of `gpspSystemTask`, followed by theorems about them.

Conventions of the embedding:

* bytes are natural numbers; the relay never inspects them;
* the global `buffer` is a list of `BUFFER_SIZE` bytes, the global
  `lastUnsentData` (a `uint32_t`) a natural number;
* a C integer conversion is written out as an explicit remainder
  (`% 256` for `uint8_t`, `% 4294967296` for `uint32_t`);
* calls into the drivers are answered by a record of responses, one record per
  loop iteration, and every call is logged as an event, in program order.
-/

namespace Gpsp

/-! ## Constants -/

/-- The `#define BUFFER_SIZE 200`. -/
def BUFFER_SIZE : Nat := 200

/-- The `#define UBX_OP_CUST_CLASS 0x99`. -/
def UBX_OP_CUST_CLASS : Nat := 0x99

/-- The `#define UBX_OP_MAG 0x02`. -/
def UBX_OP_MAG : Nat := 0x02

/-! ## Integer conversions -/

/-- Conversion of a C `int` value to `uint32_t`. -/
def toU32 (v : Int) : Nat := (v % 4294967296).toNat

/-- Conversion of a C `int` value to `uint8_t`. -/
def toU8 (v : Int) : Nat := (v % 256).toNat

/-- Conversion of a C `int` value to `int16_t` (two's complement wrap). -/
def toInt16 (v : Int) : Int := (v + 32768) % 65536 - 32768

/-! ## The relay step `ReadGPS` -/

/-- The two globals the relay step owns: `buffer` and `lastUnsentData`. -/
structure RelayState where
  buffer : List Nat
  lastUnsentData : Nat
deriving DecidableEq

/-- What `ubx_getLastSentence` hands back: its boolean result, the pointer
`lastSentence` as an offset from `buffer`, and `lastSentenceLenght`. -/
structure Sentence where
  found : Bool
  offset : Int
  length : Nat
deriving DecidableEq

/-- The answers of the two transports during one loop iteration:
the value of `PIOS_UBX_DDC_GetAvailableBytes`, the bytes the GPS source hands to
`PIOS_UBX_DDC_ReadData`, and the bytes waiting for `PIOS_COM_ReceiveBuffer`. -/
structure Transport where
  available : Int
  gpsBytes : List Nat
  hostBytes : List Nat
deriving DecidableEq

/-- The driver calls made by `ReadGPS`, with the arguments that matter. -/
inductive Event where
  /-- The call `PIOS_UBX_DDC_GetAvailableBytes(PIOS_I2C_GPS)`. -/
  | gpsAvailable
  /-- The call `PIOS_UBX_DDC_ReadData(PIOS_I2C_GPS, buffer + dst, size)`. -/
  | gpsRead (dst size : Nat)
  /-- The call `ubx_getLastSentence(buffer, count, ..)`. -/
  | getLastSentence (count : Nat)
  /-- The call `PIOS_COM_SendBuffer(pios_com_main_id, buffer, n)`, with the `n` bytes. -/
  | hostSend (bytes : List Nat)
  /-- The call `PIOS_COM_ReceiveBuffer(pios_com_main_id, buffer, max, 0)`. -/
  | hostReceive (max : Nat)
  /-- The call `PIOS_UBX_DDC_WriteData(PIOS_I2C_GPS, buffer, n)`, with the `n` bytes. -/
  | gpsWrite (bytes : List Nat)
deriving DecidableEq

/-- Store `data` at the start of `buf` (every store of `ReadGPS` targets `buffer`
itself); a store never grows the array. -/
def storeAtHead (buf data : List Nat) : List Nat :=
  data.take buf.length ++ buf.drop data.length

/-- The expression `BUFFER_SIZE - lastUnsentData`, evaluated in `uint32_t`. -/
def capacity (lastUnsentData : Nat) : Nat :=
  (BUFFER_SIZE + 4294967296 - lastUnsentData % 4294967296) % 4294967296

/-- The initialiser of `toRead`:
`(uint32_t)datacounter > BUFFER_SIZE - lastUnsentData ? BUFFER_SIZE - lastUnsentData : (uint8_t)datacounter`,
stored in a `uint8_t`. -/
def toReadOf (datacounter : Int) (lastUnsentData : Nat) : Nat :=
  (if toU32 datacounter > capacity lastUnsentData then capacity lastUnsentData
   else toU8 datacounter) % 256

/-- The `if (datacounter > 0) { .. }` block of the loop body (GPS to host).
`PIOS_COM_SendBuffer(.., buffer, toSend)` is logged with the bytes `buffer[0 .. toSend)`
that lie inside the array, and `memcpy(buffer, buffer + toSend, lastUnsentData)` copies
the source range as it was before the call. -/
def gpsToHost (ubx_getLastSentence : List Nat → Nat → Sentence)
    (io : Transport) (st : RelayState) : RelayState × List Event :=
  let datacounter := io.available
  if datacounter > 0 then
    let toRead := toReadOf datacounter st.lastUnsentData
    -- PIOS_UBX_DDC_ReadData(PIOS_I2C_GPS, buffer, toRead)
    let buffer := storeAtHead st.buffer (io.gpsBytes.take toRead)
    -- completeSentenceSent = ubx_getLastSentence(buffer, toRead, &lastSentence, &lastSentenceLenght)
    let s := ubx_getLastSentence buffer toRead
    let toSend := if s.found then toU8 (s.offset + (s.length : Int)) else toRead
    let lastUnsentData := if s.found then st.lastUnsentData else 0
    let events := [Event.gpsAvailable, Event.gpsRead 0 toRead, Event.getLastSentence toRead,
                   Event.hostSend (buffer.take toSend)]
    if toRead > toSend then
      -- lastUnsentData = toRead - toSend; memcpy(buffer, buffer + toSend, lastUnsentData)
      let lastUnsentData := toRead - toSend
      (⟨storeAtHead buffer ((buffer.drop toSend).take lastUnsentData), lastUnsentData⟩, events)
    else
      (⟨buffer, lastUnsentData⟩, events)
  else
    (st, [Event.gpsAvailable])

/-- The second half of the loop body (host to GPS):
`datacounter = PIOS_COM_ReceiveBuffer(.., buffer, BUFFER_SIZE, 0);
 if (datacounter > 0) PIOS_UBX_DDC_WriteData(.., buffer, datacounter);`. -/
def hostToGps (io : Transport) (st : RelayState) : RelayState × List Event :=
  let received := io.hostBytes.take BUFFER_SIZE
  let buffer := storeAtHead st.buffer received
  let datacounter := received.length
  if datacounter > 0 then
    (⟨buffer, st.lastUnsentData⟩, [Event.hostReceive BUFFER_SIZE, Event.gpsWrite (buffer.take datacounter)])
  else
    (⟨buffer, st.lastUnsentData⟩, [Event.hostReceive BUFFER_SIZE])

/-- One execution of the body of the `do { .. } while (maxCount--)` loop. -/
def readGPSIteration (ubx_getLastSentence : List Nat → Nat → Sentence)
    (io : Transport) (st : RelayState) : RelayState × List Event :=
  let r1 := gpsToHost ubx_getLastSentence io st
  let r2 := hostToGps io r1.1
  (r2.1, r1.2 ++ r2.2)

/-- The loop `do { body } while (maxCount--)`: the body runs, then the old value of
`maxCount` is tested and the variable decremented. `i` counts the iterations
already made, to pick the transports' answers. -/
def readGPSLoop (ubx_getLastSentence : List Nat → Nat → Sentence) (io : Nat → Transport) :
    Nat → Nat → RelayState → RelayState × List Event
  | 0, i, st => readGPSIteration ubx_getLastSentence (io i) st
  | maxCount + 1, i, st =>
    let r := readGPSIteration ubx_getLastSentence (io i) st
    let r' := readGPSLoop ubx_getLastSentence io maxCount (i + 1) r.1
    (r'.1, r.2 ++ r'.2)

/-- The function `ReadGPS`, with `int8_t maxCount = 3`. -/
def ReadGPS (ubx_getLastSentence : List Nat → Nat → Sentence) (io : Nat → Transport)
    (st : RelayState) : RelayState × List Event :=
  readGPSLoop ubx_getLastSentence io 3 0 st

/-- The globals after `n` consecutive loop iterations (across calls of `ReadGPS`). -/
def relayAfter (ubx_getLastSentence : List Nat → Nat → Sentence) (io : Nat → Transport)
    (st : RelayState) : Nat → RelayState
  | 0 => st
  | n + 1 => (readGPSIteration ubx_getLastSentence (io n)
      (relayAfter ubx_getLastSentence io st n)).1

/-- The byte ranges handed to `PIOS_COM_SendBuffer`, in order. -/
def hostSends : List Event → List (List Nat)
  | [] => []
  | Event.hostSend bytes :: es => bytes :: hostSends es
  | _ :: es => hostSends es

/-- The byte ranges handed to `PIOS_UBX_DDC_WriteData`, in order. -/
def gpsWrites : List Event → List (List Nat)
  | [] => []
  | Event.gpsWrite bytes :: es => bytes :: gpsWrites es
  | _ :: es => gpsWrites es

/-- The number of `PIOS_UBX_DDC_GetAvailableBytes` calls in a trace. -/
def gpsQueries : List Event → Nat
  | [] => 0
  | Event.gpsAvailable :: es => gpsQueries es + 1
  | _ :: es => gpsQueries es

/-- The number of `PIOS_COM_ReceiveBuffer` calls in a trace. -/
def hostPolls : List Event → Nat
  | [] => 0
  | Event.hostReceive _ :: es => hostPolls es + 1
  | _ :: es => hostPolls es

/-! ## The magnetometer step `ReadMag` -/

/-- The payload `MagData` (packed: three `int16_t` and one `uint16_t`). -/
structure MagData where
  X : Int
  Y : Int
  Z : Int
  status : Nat
deriving DecidableEq

/-- The value of `sizeof(MagData)`: a packed struct of four 16-bit fields. -/
def sizeofMagData : Nat := 8

/-- The answers of the magnetometer driver: `PIOS_HMC5x83_NewDataAvailable`, the
status returned by `PIOS_HMC5x83_ReadMag` and the three `int16_t` it stores in `mag`. -/
structure MagDevice where
  newData : Bool
  readStatus : Int
  mag0 : Int
  mag1 : Int
  mag2 : Int
deriving DecidableEq

/-- The calls made by `ReadMag`. -/
inductive MagEvent where
  /-- The call `PIOS_HMC5x83_NewDataAvailable(onboard_mag)`. -/
  | newDataAvailable
  /-- The call `PIOS_HMC5x83_ReadMag(onboard_mag, mag)`. -/
  | readMag
  /-- The call `ubx_buildPacket(&magPkt.packet, cls, id, len)` on the payload `data`. -/
  | buildPacket (data : MagData) (cls id len : Nat)
  /-- The call `PIOS_COM_SendBuffer(pios_com_main_id, magPkt.packet.bynarystream, ..)`. -/
  | sendBuffer (data : MagData)
deriving DecidableEq

/-- The function `ReadMag`. -/
def ReadMag (dev : MagDevice) : List MagEvent :=
  if !dev.newData then
    [MagEvent.newDataAvailable]
  else if dev.readStatus = 0 then
    let data : MagData :=
      { X := toInt16 (-dev.mag1), Y := dev.mag0, Z := dev.mag2, status := 1 }
    [MagEvent.newDataAvailable, MagEvent.readMag,
     MagEvent.buildPacket data UBX_OP_CUST_CLASS UBX_OP_MAG sizeofMagData,
     MagEvent.sendBuffer data]
  else
    [MagEvent.newDataAvailable, MagEvent.readMag]

/-- Whether an event of `ReadMag` builds or sends a frame. -/
def MagEvent.isFrame : MagEvent → Bool
  | MagEvent.buildPacket _ _ _ _ => true
  | MagEvent.sendBuffer _ => true
  | _ => false

/-! ## The main loop of `gpspSystemTask` -/

/-- The calls made by one round of the `while (1)` loop. -/
inductive TaskEvent where
  /-- The call `PIOS_LED_Toggle(PIOS_LED_HEARTBEAT)`. -/
  | ledToggle
  /-- The call `vTaskDelayUntil(&lastUpdate, ..)`. -/
  | delayUntil
  /-- The call `ReadGPS()`. -/
  | readGPS
  /-- The call `ReadMag()`. -/
  | readMag
  /-- The call `updateStats()`. -/
  | updateStats
deriving DecidableEq

/-- One round of the `while (1)` loop, from the value of the `uint8_t counter`:
`if (!(++counter & 0x7F)) PIOS_LED_Toggle(..); vTaskDelayUntil(..); ReadGPS(); ReadMag(); updateStats();`. -/
def gpspSystemTaskRound (counter : Nat) : Nat × List TaskEvent :=
  let counter := (counter + 1) % 256
  (counter,
    (if counter &&& 0x7F = 0 then [TaskEvent.ledToggle] else []) ++
      [TaskEvent.delayUntil, TaskEvent.readGPS, TaskEvent.readMag, TaskEvent.updateStats])

/-- The value of `counter` after `n` rounds, from `uint8_t counter = 0`. -/
def counterAfter : Nat → Nat
  | 0 => 0
  | n + 1 => (gpspSystemTaskRound (counterAfter n)).1

/-- The calls made in the `n`-th round of the loop, rounds counted from 1. -/
def roundEvents (n : Nat) : List TaskEvent := (gpspSystemTaskRound (counterAfter (n - 1))).2

/-! ## A concrete sentence locator and concrete runs

The locator `ubx_getLastSentence` lives in another file. For the concrete runs below
a line-oriented stand-in is used: a sentence is a run of bytes closed by the byte 10. -/

/-- One past the position of the last byte 10 of `bs`, positions counted from `pos`. -/
def lastTerminatorEnd : List Nat → Nat → Option Nat
  | [], _ => none
  | b :: bs, pos =>
    match lastTerminatorEnd bs (pos + 1) with
    | some e => some e
    | none => if b = 10 then some (pos + 1) else none

/-- The last complete line among the first `count` bytes of `buf`: where it starts and
how long it is, its closing byte 10 included. -/
def lineLocator (buf : List Nat) (count : Nat) : Sentence :=
  match lastTerminatorEnd (buf.take count) 0 with
  | none => ⟨false, 0, 0⟩
  | some e =>
    let start := (lastTerminatorEnd (buf.take (e - 1)) 0).getD 0
    ⟨true, (start : Int), e - start⟩

/-- The globals at start-up: static storage is zeroed, `lastUnsentData = 0`. -/
def initialState : RelayState := ⟨List.replicate BUFFER_SIZE 0, 0⟩

/-- A 50-byte chunk: a 30-byte line (29 bytes `65`, then `10`) and the first 20 bytes
(`66`) of the next line. -/
def chunk1 : List Nat := List.replicate 29 65 ++ [10] ++ List.replicate 20 66

/-- A 10-byte chunk closing the second line: 9 bytes `67`, then `10`. -/
def chunk2 : List Nat := List.replicate 9 67 ++ [10]

/-- The GPS source offers `chunk1`, then `chunk2`, then nothing; the host is silent. -/
def twoChunks : Nat → Transport
  | 0 => ⟨50, chunk1, []⟩
  | 1 => ⟨10, chunk2, []⟩
  | _ => ⟨0, [], []⟩

/-- The GPS source offers the four bytes `1, 10, 3, 4`, then nothing; the host sends the
byte `9` during the first iteration. -/
def carryThenHost : Nat → Transport
  | 0 => ⟨4, [1, 10, 3, 4], [9]⟩
  | _ => ⟨0, [], []⟩

/-! ## Auxiliary facts -/

theorem storeAtHead_length (buf data : List Nat) :
    (storeAtHead buf data).length = buf.length := by
  simp only [storeAtHead, List.length_append, List.length_take, List.length_drop]
  omega

theorem storeAtHead_nil (buf : List Nat) : storeAtHead buf [] = buf := by
  simp [storeAtHead]

theorem capacity_of_le (k : Nat) (hk : k ≤ BUFFER_SIZE) : capacity k = BUFFER_SIZE - k := by
  unfold capacity BUFFER_SIZE at *
  omega

theorem toReadOf_le (d : Int) (k : Nat) (hk : k ≤ BUFFER_SIZE) :
    toReadOf d k ≤ BUFFER_SIZE := by
  have hc := capacity_of_le k hk
  unfold toReadOf toU32 toU8
  unfold BUFFER_SIZE at *
  split <;> omega

theorem hostToGps_lastUnsentData (io : Transport) (st : RelayState) :
    (hostToGps io st).1.lastUnsentData = st.lastUnsentData := by
  unfold hostToGps
  dsimp only
  split <;> rfl

theorem hostToGps_buffer_length (io : Transport) (st : RelayState) :
    (hostToGps io st).1.buffer.length = st.buffer.length := by
  unfold hostToGps
  dsimp only
  split <;> simp [storeAtHead_length]

theorem gpsToHost_lastUnsentData_le (loc : List Nat → Nat → Sentence) (io : Transport)
    (st : RelayState) (hk : st.lastUnsentData ≤ BUFFER_SIZE) :
    (gpsToHost loc io st).1.lastUnsentData ≤ BUFFER_SIZE := by
  have hr := toReadOf_le io.available st.lastUnsentData hk
  simp only [gpsToHost]
  split_ifs
  · exact Nat.le_trans (Nat.sub_le _ _) hr
  · exact hk
  · exact Nat.le_trans (Nat.sub_le _ _) hr
  · exact Nat.zero_le _
  · exact hk

theorem gpsToHost_buffer_length (loc : List Nat → Nat → Sentence) (io : Transport)
    (st : RelayState) : (gpsToHost loc io st).1.buffer.length = st.buffer.length := by
  simp only [gpsToHost]
  split_ifs <;> simp only [storeAtHead_length]

theorem readGPSIteration_lastUnsentData_le (loc : List Nat → Nat → Sentence) (io : Transport)
    (st : RelayState) (hk : st.lastUnsentData ≤ BUFFER_SIZE) :
    (readGPSIteration loc io st).1.lastUnsentData ≤ BUFFER_SIZE := by
  unfold readGPSIteration
  dsimp only
  rw [hostToGps_lastUnsentData]
  exact gpsToHost_lastUnsentData_le loc io st hk

theorem readGPSIteration_buffer_length (loc : List Nat → Nat → Sentence) (io : Transport)
    (st : RelayState) : (readGPSIteration loc io st).1.buffer.length = st.buffer.length := by
  unfold readGPSIteration
  dsimp only
  rw [hostToGps_buffer_length, gpsToHost_buffer_length]

theorem relayAfter_lastUnsentData_le (loc : List Nat → Nat → Sentence) (io : Nat → Transport)
    (st : RelayState) (hk : st.lastUnsentData ≤ BUFFER_SIZE) (n : Nat) :
    (relayAfter loc io st n).lastUnsentData ≤ BUFFER_SIZE := by
  induction n with
  | zero => exact hk
  | succ n ih => exact readGPSIteration_lastUnsentData_le loc (io n) _ ih

theorem relayAfter_buffer_length (loc : List Nat → Nat → Sentence) (io : Nat → Transport)
    (st : RelayState) (n : Nat) :
    (relayAfter loc io st n).buffer.length = st.buffer.length := by
  induction n with
  | zero => rfl
  | succ n ih =>
    show (readGPSIteration loc (io n) (relayAfter loc io st n)).1.buffer.length = _
    rw [readGPSIteration_buffer_length, ih]

theorem readGPSIteration_idle (loc : List Nat → Nat → Sentence) (io : Transport)
    (st : RelayState) (ha : io.available = 0) (hh : io.hostBytes = []) :
    readGPSIteration loc io st = (st, [Event.gpsAvailable, Event.hostReceive BUFFER_SIZE]) := by
  simp [readGPSIteration, gpsToHost, hostToGps, ha, hh, storeAtHead_nil]

theorem gpsQueries_append (a b : List Event) :
    gpsQueries (a ++ b) = gpsQueries a + gpsQueries b := by
  induction a with
  | nil => simp [gpsQueries]
  | cons e es ih =>
    rw [List.cons_append]
    cases e <;> simp only [gpsQueries, ih]
    omega

theorem hostPolls_append (a b : List Event) :
    hostPolls (a ++ b) = hostPolls a + hostPolls b := by
  induction a with
  | nil => simp [hostPolls]
  | cons e es ih =>
    rw [List.cons_append]
    cases e <;> simp only [hostPolls, ih]
    omega

theorem readGPSIteration_gpsQueries (loc : List Nat → Nat → Sentence) (io : Transport)
    (st : RelayState) : gpsQueries (readGPSIteration loc io st).2 = 1 := by
  simp only [readGPSIteration, gpsToHost, hostToGps, gpsQueries_append]
  split_ifs <;> rfl

theorem readGPSIteration_hostPolls (loc : List Nat → Nat → Sentence) (io : Transport)
    (st : RelayState) : hostPolls (readGPSIteration loc io st).2 = 1 := by
  simp only [readGPSIteration, gpsToHost, hostToGps, hostPolls_append]
  split_ifs <;> rfl

/-! ## The relay step: carry-over bound (C7) -/

/-- C7. From `lastUnsentData = 0` and any buffer contents, after any number of loop
iterations, whatever the GPS source reports as available (any integer, so any
`int32_t`) and whatever the sentence locator returns (`loc` is an arbitrary function):
`lastUnsentData ≤ BUFFER_SIZE`; the `uint32_t` subtraction `BUFFER_SIZE - lastUnsentData`
does not wrap (adding `lastUnsentData` back gives `BUFFER_SIZE`); and the `uint8_t`
`toRead` of the next iteration is at most `BUFFER_SIZE` for every available count
`datacounter`. -/
theorem lastUnsentData_le_BUFFER_SIZE (loc : List Nat → Nat → Sentence)
    (io : Nat → Transport) (buf : List Nat) (n : Nat) (datacounter : Int) :
    (relayAfter loc io ⟨buf, 0⟩ n).lastUnsentData ≤ BUFFER_SIZE ∧
    capacity (relayAfter loc io ⟨buf, 0⟩ n).lastUnsentData +
      (relayAfter loc io ⟨buf, 0⟩ n).lastUnsentData = BUFFER_SIZE ∧
    toReadOf datacounter (relayAfter loc io ⟨buf, 0⟩ n).lastUnsentData ≤ BUFFER_SIZE := by
  have h := relayAfter_lastUnsentData_le loc io ⟨buf, 0⟩ (Nat.zero_le _) n
  refine ⟨h, ?_, toReadOf_le datacounter _ h⟩
  rw [capacity_of_le _ h]
  omega

/-! ## The relay step: nothing to do (C4) -/

/-- C4. If in each of the iterations of one `ReadGPS` call the GPS source reports zero
available bytes and the host receive returns no byte, the call leaves `buffer` and
`lastUnsentData` as they were, and makes no host send and no GPS write. -/
theorem ReadGPS_idle (loc : List Nat → Nat → Sentence) (io : Nat → Transport)
    (st : RelayState)
    (h : ∀ i, i ≤ 3 → (io i).available = 0 ∧ (io i).hostBytes = []) :
    (ReadGPS loc io st).1 = st ∧
    hostSends (ReadGPS loc io st).2 = [] ∧
    gpsWrites (ReadGPS loc io st).2 = [] := by
  have h0 := h 0 (by omega)
  have h1 := h 1 (by omega)
  have h2 := h 2 (by omega)
  have h3 := h 3 (by omega)
  simp only [ReadGPS, readGPSLoop, readGPSIteration_idle loc _ _ h0.1 h0.2,
    readGPSIteration_idle loc _ _ h1.1 h1.2, readGPSIteration_idle loc _ _ h2.1 h2.2,
    readGPSIteration_idle loc _ _ h3.1 h3.2]
  exact ⟨trivial, rfl, rfl⟩

/-- C4 at a concrete input: a buffer holding three carried bytes, silent transports. -/
theorem ReadGPS_idle_witness :
    (ReadGPS lineLocator (fun _ => ⟨0, [], []⟩) ⟨[7, 8, 9, 0], 3⟩).1 = ⟨[7, 8, 9, 0], 3⟩ ∧
    hostSends (ReadGPS lineLocator (fun _ => ⟨0, [], []⟩) ⟨[7, 8, 9, 0], 3⟩).2 = [] ∧
    gpsWrites (ReadGPS lineLocator (fun _ => ⟨0, [], []⟩) ⟨[7, 8, 9, 0], 3⟩).2 = [] :=
  ReadGPS_idle lineLocator (fun _ => ⟨0, [], []⟩) ⟨[7, 8, 9, 0], 3⟩ (fun _ _ => ⟨rfl, rfl⟩)

/-! ## The relay step: number of iterations (C6) -/

/-- C6. One call of `ReadGPS` runs its loop body four times, whatever the transports
and the locator do: `maxCount` starts at 3 and `while (maxCount--)` tests the value
before the decrement, so the body runs for 3, 2, 1 and 0. The GPS source is queried
four times and the host sink polled four times, not at most three. -/
theorem ReadGPS_runs_body_four_times (loc : List Nat → Nat → Sentence)
    (io : Nat → Transport) (st : RelayState) :
    gpsQueries (ReadGPS loc io st).2 = 4 ∧ hostPolls (ReadGPS loc io st).2 = 4 := by
  simp only [ReadGPS, readGPSLoop, gpsQueries_append, hostPolls_append,
    readGPSIteration_gpsQueries, readGPSIteration_hostPolls]
  exact ⟨trivial, trivial⟩

/-! ## The relay step: full loads without a sentence boundary (C5) -/

theorem toReadOf_full (a : Int) (h1 : (BUFFER_SIZE : Int) ≤ a) (h2 : a < 2147483648) :
    toReadOf a 0 = BUFFER_SIZE := by
  unfold toReadOf toU32 toU8 capacity
  unfold BUFFER_SIZE at *
  split <;> omega

theorem storeAtHead_full (buf data : List Nat) (h : data.length = buf.length) :
    storeAtHead buf data = data := by
  simp [storeAtHead, ← h]

theorem hostSends_hostToGps (io : Transport) (st : RelayState) :
    hostSends (hostToGps io st).2 = [] := by
  simp only [hostToGps]
  split_ifs <;> rfl

theorem hostSends_append (a b : List Event) :
    hostSends (a ++ b) = hostSends a ++ hostSends b := by
  induction a with
  | nil => simp [hostSends]
  | cons e es ih =>
    rw [List.cons_append]
    cases e <;> simp only [hostSends, ih, List.cons_append]

theorem readGPSIteration_full_load (loc : List Nat → Nat → Sentence) (io : Transport)
    (st : RelayState) (hk : st.lastUnsentData = 0) (hlen : st.buffer.length = BUFFER_SIZE)
    (h1 : (BUFFER_SIZE : Int) ≤ io.available) (h2 : io.available < 2147483648)
    (h3 : BUFFER_SIZE ≤ io.gpsBytes.length)
    (hnone : (loc (storeAtHead st.buffer (io.gpsBytes.take BUFFER_SIZE)) BUFFER_SIZE).found
      = false) :
    hostSends (readGPSIteration loc io st).2 = [io.gpsBytes.take BUFFER_SIZE] ∧
    (readGPSIteration loc io st).1.lastUnsentData = 0 := by
  have hpos : io.available > 0 := by
    unfold BUFFER_SIZE at h1
    omega
  have htl : (io.gpsBytes.take BUFFER_SIZE).length = st.buffer.length := by
    rw [List.length_take, hlen]
    omega
  have hstore := storeAtHead_full st.buffer (io.gpsBytes.take BUFFER_SIZE) htl
  have htake : (io.gpsBytes.take BUFFER_SIZE).take BUFFER_SIZE = io.gpsBytes.take BUFFER_SIZE := by
    rw [List.take_take, Nat.min_self]
  rw [hstore] at hnone
  simp only [readGPSIteration, hostSends_append, hostSends_hostToGps,
    hostToGps_lastUnsentData, gpsToHost, hk, toReadOf_full io.available h1 h2, hstore,
    hnone, if_pos hpos, List.append_nil]
  simp [hostSends, htake]

theorem relayAfter_full_loads (loc : List Nat → Nat → Sentence) (io : Nat → Transport)
    (buf : List Nat) (N : Nat) (hbuf : buf.length = BUFFER_SIZE)
    (hfull : ∀ j, j < N → (BUFFER_SIZE : Int) ≤ (io j).available ∧
      (io j).available < 2147483648 ∧ BUFFER_SIZE ≤ (io j).gpsBytes.length)
    (hnone : ∀ j, j < N →
      (loc (storeAtHead (relayAfter loc io ⟨buf, 0⟩ j).buffer
        ((io j).gpsBytes.take BUFFER_SIZE)) BUFFER_SIZE).found = false)
    (i : Nat) (hi : i ≤ N) : (relayAfter loc io ⟨buf, 0⟩ i).lastUnsentData = 0 := by
  induction i with
  | zero => rfl
  | succ i ih =>
    have hlt : i < N := by omega
    have hf := hfull i hlt
    exact (readGPSIteration_full_load loc (io i) _ (ih (by omega))
      (by rw [relayAfter_buffer_length]; exact hbuf) hf.1 hf.2.1 hf.2.2 (hnone i hlt)).2

/-- C5. Take `N` consecutive iterations from `lastUnsentData = 0` in each of which the GPS
source has at least `BUFFER_SIZE` bytes (a full-buffer load: the count is an `int32_t`
of at least 200 and the source delivers them) and the locator, applied to the loaded
buffer, reports no complete sentence. Then in each of them the host gets exactly one
send, holding all `BUFFER_SIZE` bytes just read, and `lastUnsentData` is 0 afterwards. -/
theorem full_loads_without_boundary (loc : List Nat → Nat → Sentence) (io : Nat → Transport)
    (buf : List Nat) (N : Nat) (hbuf : buf.length = BUFFER_SIZE)
    (hfull : ∀ j, j < N → (BUFFER_SIZE : Int) ≤ (io j).available ∧
      (io j).available < 2147483648 ∧ BUFFER_SIZE ≤ (io j).gpsBytes.length)
    (hnone : ∀ j, j < N →
      (loc (storeAtHead (relayAfter loc io ⟨buf, 0⟩ j).buffer
        ((io j).gpsBytes.take BUFFER_SIZE)) BUFFER_SIZE).found = false)
    (i : Nat) (hi : i < N) :
    hostSends (readGPSIteration loc (io i) (relayAfter loc io ⟨buf, 0⟩ i)).2
      = [(io i).gpsBytes.take BUFFER_SIZE] ∧
    ((io i).gpsBytes.take BUFFER_SIZE).length = BUFFER_SIZE ∧
    (relayAfter loc io ⟨buf, 0⟩ (i + 1)).lastUnsentData = 0 := by
  have hf := hfull i hi
  have hk := relayAfter_full_loads loc io buf N hbuf hfull hnone i (by omega)
  have hstep := readGPSIteration_full_load loc (io i) _ hk
    (by rw [relayAfter_buffer_length]; exact hbuf) hf.1 hf.2.1 hf.2.2 (hnone i hi)
  refine ⟨hstep.1, ?_, hstep.2⟩
  rw [List.length_take]
  omega

/-- C5 at a concrete input: three loads of 200 bytes `7` with a locator that never finds
a sentence, looked at in the third load. -/
theorem full_loads_without_boundary_witness :
    hostSends (readGPSIteration (fun _ _ => ⟨false, 0, 0⟩)
        ((fun _ => ⟨200, List.replicate 200 7, []⟩ : Nat → Transport) 2)
        (relayAfter (fun _ _ => ⟨false, 0, 0⟩) (fun _ => ⟨200, List.replicate 200 7, []⟩)
          ⟨List.replicate 200 0, 0⟩ 2)).2
      = [((fun _ => ⟨200, List.replicate 200 7, []⟩ : Nat → Transport) 2).gpsBytes.take
          BUFFER_SIZE] ∧
    (((fun _ => ⟨200, List.replicate 200 7, []⟩ : Nat → Transport) 2).gpsBytes.take
      BUFFER_SIZE).length = BUFFER_SIZE ∧
    (relayAfter (fun _ _ => ⟨false, 0, 0⟩) (fun _ => ⟨200, List.replicate 200 7, []⟩)
      ⟨List.replicate 200 0, 0⟩ (2 + 1)).lastUnsentData = 0 :=
  full_loads_without_boundary (fun _ _ => ⟨false, 0, 0⟩)
    (fun _ => ⟨200, List.replicate 200 7, []⟩) (List.replicate 200 0) 3
    (List.length_replicate 200 0)
    (fun _ _ => ⟨(by show ((200 : Nat) : Int) ≤ 200; decide),
      (by show (200 : Int) < 2147483648; decide),
      Nat.le_of_eq (List.length_replicate 200 7).symm⟩)
    (fun _ _ => rfl) 2 (by decide)

/-! ## The magnetometer step (C8) -/

theorem toInt16_range (v : Int) : -32768 ≤ toInt16 v ∧ toInt16 v ≤ 32767 := by
  unfold toInt16
  omega

theorem toInt16_neg (y : Int) (h1 : -32768 < y) (h2 : y ≤ 32767) : toInt16 (-y) = -y := by
  unfold toInt16
  omega

/-- C8. When the device reports new data and the read returns status 0, `ReadMag` builds
and sends one frame whose payload is `X = -mag[1]` stored as an `int16_t`, `Y = mag[0]`,
`Z = mag[2]`, `status = 1`, with class `0x99`, id `0x02` and payload length 8; the
stored `X` is a 16-bit signed value and equals `-mag[1]` for every 16-bit `mag[1]` other
than `-32768`. When the device reports no new data, or the read returns a non-zero
status, no frame is built or sent. -/
theorem ReadMag_remap (dev : MagDevice) :
    (dev.newData = true → dev.readStatus = 0 →
      ReadMag dev =
        [MagEvent.newDataAvailable, MagEvent.readMag,
         MagEvent.buildPacket ⟨toInt16 (-dev.mag1), dev.mag0, dev.mag2, 1⟩ 0x99 0x02 8,
         MagEvent.sendBuffer ⟨toInt16 (-dev.mag1), dev.mag0, dev.mag2, 1⟩] ∧
      -32768 ≤ toInt16 (-dev.mag1) ∧ toInt16 (-dev.mag1) ≤ 32767 ∧
      (-32768 < dev.mag1 → dev.mag1 ≤ 32767 → toInt16 (-dev.mag1) = -dev.mag1)) ∧
    (dev.newData = false ∨ dev.readStatus ≠ 0 →
      (ReadMag dev).filter MagEvent.isFrame = []) := by
  refine ⟨fun hn hs => ⟨?_, (toInt16_range _).1, (toInt16_range _).2, toInt16_neg _⟩, ?_⟩
  · simp [ReadMag, hn, hs, UBX_OP_CUST_CLASS, UBX_OP_MAG, sizeofMagData]
  · intro h
    rcases h with h | h
    · simp only [ReadMag, h, Bool.not_false, if_true]
      rfl
    · by_cases hn : dev.newData = true
      · simp only [ReadMag, hn, Bool.not_true, Bool.false_eq_true, if_false, if_neg h]
        rfl
      · have hn' : dev.newData = false := by simpa using hn
        simp only [ReadMag, hn', Bool.not_false, if_true]
        rfl

/-- C8 at the raw reading `(10, 20, 30)`: the frame carries `(-20, 10, 30, 1)`; with no
new data, or with read status `-1`, no frame. -/
theorem ReadMag_remap_witness :
    (ReadMag ⟨true, 0, 10, 20, 30⟩ =
      [MagEvent.newDataAvailable, MagEvent.readMag,
       MagEvent.buildPacket ⟨-20, 10, 30, 1⟩ 0x99 0x02 8,
       MagEvent.sendBuffer ⟨-20, 10, 30, 1⟩]) ∧
    (ReadMag ⟨false, 0, 10, 20, 30⟩).filter MagEvent.isFrame = [] ∧
    (ReadMag ⟨true, -1, 10, 20, 30⟩).filter MagEvent.isFrame = [] :=
  ⟨((ReadMag_remap ⟨true, 0, 10, 20, 30⟩).1 rfl rfl).1,
   (ReadMag_remap ⟨false, 0, 10, 20, 30⟩).2 (Or.inl rfl),
   (ReadMag_remap ⟨true, -1, 10, 20, 30⟩).2 (Or.inr (by decide))⟩

/-! ## The main loop: heartbeat cadence (C9) -/

theorem counterAfter_eq (n : Nat) : counterAfter n = n % 256 := by
  induction n with
  | zero => rfl
  | succ n ih =>
    show (counterAfter n + 1) % 256 = (n + 1) % 256
    rw [ih]
    omega

theorem and_0x7F (c : Nat) : c &&& 0x7F = c % 128 :=
  Nat.and_pow_two_sub_one_eq_mod c 7

/-- C9. With the `uint8_t counter` starting at 0 and incremented once per round, for every
`n ≥ 1` the `n`-th round of the loop toggles the heartbeat indicator if and only if `n`
is a multiple of 128, before the periodic wait, and then calls the wait, `ReadGPS`,
`ReadMag` and `updateStats`, in that order. -/
theorem heartbeat_cadence (n : Nat) (hn : 1 ≤ n) :
    roundEvents n =
      (if 128 ∣ n then [TaskEvent.ledToggle] else []) ++
        [TaskEvent.delayUntil, TaskEvent.readGPS, TaskEvent.readMag, TaskEvent.updateStats] ∧
    (TaskEvent.ledToggle ∈ roundEvents n ↔ 128 ∣ n) := by
  have hev : roundEvents n =
      (if 128 ∣ n then [TaskEvent.ledToggle] else []) ++
        [TaskEvent.delayUntil, TaskEvent.readGPS, TaskEvent.readMag,
          TaskEvent.updateStats] := by
    have hc : (counterAfter (n - 1) + 1) % 256 % 128 = 0 ↔ 128 ∣ n := by
      rw [counterAfter_eq]
      omega
    simp only [roundEvents, gpspSystemTaskRound, and_0x7F]
    by_cases hd : 128 ∣ n
    · rw [if_pos hd, if_pos (hc.2 hd)]
    · rw [if_neg hd, if_neg (fun h => hd (hc.1 h))]
  refine ⟨hev, ?_⟩
  rw [hev]
  by_cases hd : 128 ∣ n <;> simp [hd]

/-- C9 at rounds 128 (toggle) and 129 (no toggle). -/
theorem heartbeat_cadence_witness :
    roundEvents 128 =
      [TaskEvent.ledToggle, TaskEvent.delayUntil, TaskEvent.readGPS, TaskEvent.readMag,
        TaskEvent.updateStats] ∧
    roundEvents 129 =
      [TaskEvent.delayUntil, TaskEvent.readGPS, TaskEvent.readMag, TaskEvent.updateStats] :=
  ⟨(heartbeat_cadence 128 (by decide)).1, (heartbeat_cadence 129 (by decide)).1⟩

/-! ## The relay step: what happens to carried-over bytes (C1, C2, C3, C10)

The runs below start from the start-up state and use the line-oriented locator. -/

set_option maxRecDepth 100000

/-- C1. One `ReadGPS` call in which the GPS source offers a 50-byte chunk (a 30-byte
sentence and the first 20 bytes of the next one), then the 10 bytes closing the second
sentence: the host receives the 30-byte sentence and then only the 10 new bytes. The
20 carried bytes are never sent, the second sentence reaches the host truncated, and
the bytes sent followed by the bytes counted as carried differ from the bytes read. -/
theorem ReadGPS_drops_carried_bytes :
    hostSends (ReadGPS lineLocator twoChunks initialState).2 = [chunk1.take 30, chunk2] ∧
    (ReadGPS lineLocator twoChunks initialState).1.lastUnsentData = 20 ∧
    chunk1.take 30 ++ chunk2 ++
        (ReadGPS lineLocator twoChunks initialState).1.buffer.take
          (ReadGPS lineLocator twoChunks initialState).1.lastUnsentData
      ≠ chunk1 ++ chunk2 := by
  decide

/-- C2. The iteration after a carry-over of 20 bytes, with 10 bytes available: the 10
bytes are read to offset 0 of the buffer, not to offset 20, so they replace the first
10 carried bytes, and the locator is applied to 10 bytes, not to 30. -/
theorem read_overwrites_carried_bytes :
    (relayAfter lineLocator twoChunks initialState 1).lastUnsentData = 20 ∧
    (relayAfter lineLocator twoChunks initialState 1).buffer.take 20 = List.replicate 20 66 ∧
    (gpsToHost lineLocator (twoChunks 1) (relayAfter lineLocator twoChunks initialState 1)).2
      = [Event.gpsAvailable, Event.gpsRead 0 10, Event.getLastSentence 10,
         Event.hostSend chunk2] ∧
    (gpsToHost lineLocator (twoChunks 1)
        (relayAfter lineLocator twoChunks initialState 1)).1.buffer.take 20
      = chunk2 ++ List.replicate 10 66 := by
  decide

/-- C3. With a carry-over of 20 bytes, an iteration reads 10 bytes and the locator
reports a sentence ending exactly at the end of the data it was given (offset 10 of
10): `lastUnsentData` is still 20 after the iteration, not 0. -/
theorem lastUnsentData_stale_after_complete_sentence :
    (relayAfter lineLocator twoChunks initialState 1).lastUnsentData = 20 ∧
    toReadOf (twoChunks 1).available 20 = 10 ∧
    lineLocator
        (storeAtHead (relayAfter lineLocator twoChunks initialState 1).buffer chunk2) 10
      = ⟨true, 0, 10⟩ ∧
    (relayAfter lineLocator twoChunks initialState 2).lastUnsentData = 20 := by
  decide

/-- C10. An iteration ends its GPS-to-host half with two carried bytes `3, 4` at the head
of the buffer and then receives the byte `9` from the host: the byte is written to the
GPS source, but it was received into the head of the same buffer, which now starts
with `9, 4` while `lastUnsentData` is still 2. -/
theorem host_receive_overwrites_carry :
    (gpsToHost lineLocator (carryThenHost 0) initialState).1.lastUnsentData = 2 ∧
    (gpsToHost lineLocator (carryThenHost 0) initialState).1.buffer.take 2 = [3, 4] ∧
    gpsWrites (readGPSIteration lineLocator (carryThenHost 0) initialState).2 = [[9]] ∧
    (readGPSIteration lineLocator (carryThenHost 0) initialState).1.lastUnsentData = 2 ∧
    (readGPSIteration lineLocator (carryThenHost 0) initialState).1.buffer.take 2 = [9, 4] := by
  decide

end Gpsp
